import Mathlib

/-!
Shallow embedding of `src/lib/crypto/wallet.ts` from the dunes-cli
repository: BIP39 mnemonic handling, BIP32/BIP86 key derivation, Taproot
(BIP341) tweaking, and scrypt/AES-256-GCM mnemonic encryption.

Node `Buffer` values are modelled as `List Nat` of bytes.  External
cryptographic library primitives (SHA-style hashes, HMAC, PBKDF2, scrypt,
the AES-GCM keystream and authentication tag, secp256k1 point arithmetic)
are not part of the repository; they are modelled by executable stand-in
functions that keep the byte-level structure the wallet code relies on
(output lengths, byte ranges, CTR-keystream XOR encryption, tag check on
decryption) while replacing the cryptographic cores by a simple mixing
pseudo-random function.
-/

deriving instance DecidableEq for Except

set_option maxRecDepth 200000

set_option maxHeartbeats 1000000

namespace DunesWallet

/-- A sequence of bytes; the model of a Node `Buffer`. -/
abbrev ByteSeq := List Nat

/-- One step of the stand-in mixing function. -/
def mixStep (a b : Nat) : Nat := (a * 131 + b + 7) % 1000003

/-- Stand-in hash core: fold the mixing step over a byte sequence. -/
def mixHash (bs : ByteSeq) : Nat := bs.foldl mixStep 5381

/-- Pseudo-random byte stream derived from a seed byte sequence: the
executable stand-in for the cryptographic hash / PRF primitives of the
external libraries.  Every output byte is reduced mod 256. -/
def prfBytes (seedBytes : ByteSeq) (n : Nat) : ByteSeq :=
  (List.range n).map (fun i => mixHash (seedBytes ++ [i % 256, (i / 256) % 256]) % 256)

/-- Big-endian interpretation of a byte sequence as a natural number. -/
def bytesToNat (bs : ByteSeq) : Nat := bs.foldl (fun acc b => acc * 256 + b) 0

/-- Big-endian serialization of a natural number into `len` bytes. -/
def natToBytesBE (len k : Nat) : ByteSeq :=
  (List.range len).map (fun i => k / 256 ^ (len - 1 - i) % 256)

/-- Lower-case hex digit for a nibble. -/
def hexDigitChar (n : Nat) : Char :=
  if n < 10 then Char.ofNat (48 + n) else Char.ofNat (87 + n)

/-- Numeric value of a lower-case hex digit. -/
def hexDigitVal (c : Char) : Nat :=
  if 97 ≤ c.toNat then c.toNat - 87 else c.toNat - 48

/-- Hex-encode a byte sequence, two digits per byte (`Buffer.toString("hex")`). -/
def hexEncode : ByteSeq → List Char
  | [] => []
  | b :: rest => hexDigitChar (b / 16) :: hexDigitChar (b % 16) :: hexEncode rest

/-- Decode a hex digit string back to bytes (`Buffer.from(s, "hex")`). -/
def hexDecode : List Char → ByteSeq
  | a :: b :: rest => (hexDigitVal a * 16 + hexDigitVal b) :: hexDecode rest
  | _ => []

/-- Hex-encode into a `String`. -/
def hexEncodeS (bs : ByteSeq) : String := ⟨hexEncode bs⟩

/-- Decode a hex `String` back to bytes. -/
def hexDecodeS (s : String) : ByteSeq := hexDecode s.data

/-- The network configuration.  Modelled from the spec: the `NETWORK`
constant of `@/lib/consts` is not under `src/`; the spec says the network
(mainnet vs. testnet version bytes / address prefixes) is supplied as a
constant at startup. -/
inductive Network where
  | mainnet
  | testnet
deriving DecidableEq

/-- Modelled from the spec: the startup network constant (`NETWORK` from
`@/lib/consts`). -/
def NETWORK : Network := Network.mainnet

/-- The order of the secp256k1 group; scalars live in `[1, curveOrder)`. -/
def curveOrder : Nat :=
  115792089237316195423570985008687907852837564279074904382605163141518161494337

/-- Stand-in for compressed-point serialization of `k * G`: a 33-byte
sequence with an even-parity prefix byte followed by the 32-byte x
coordinate (stand-in: the scalar itself, big-endian). -/
def pointOf (k : Nat) : ByteSeq := 2 :: natToBytesBE 32 k

/-- Model of a `BIP32Interface` node from the external `bip32` library: a
secret scalar (absent when neutered), the compressed public key, the chain
code and the network. -/
structure BIP32Node where
  priv : Option Nat
  pub : ByteSeq
  chain : ByteSeq
  network : Network
deriving DecidableEq

/-- Model of `bip32.fromSeed(seed, network)`: rejects seeds shorter than
16 or longer than 64 bytes, computes the stand-in of
HMAC-SHA512("Bitcoin seed", seed), takes the first 32 bytes as the master
scalar (rejected when it degenerates to 0 mod the curve order) and the
last 32 bytes as the chain code. -/
def fromSeed (seed : ByteSeq) (nw : Network) : Option BIP32Node :=
  if seed.length < 16 ∨ 64 < seed.length then none
  else
    let I := prfBytes ([66, 83] ++ seed) 64
    let k := bytesToNat (I.take 32) % curveOrder
    if k = 0 then none
    else some { priv := some k, pub := pointOf k, chain := I.drop 32, network := nw }

/-- Model of one hardened BIP32 child-derivation step
(`node.deriveHardened(idx)`): requires the private scalar, mixes
`0x00 || ser256(k) || ser32(idx + 2^31)` through the stand-in
HMAC-SHA512 keyed by the chain code, and forms the child scalar
`(IL + k) mod n`, rejected when it degenerates to 0. -/
def deriveHardened (node : BIP32Node) (idx : Nat) : Option BIP32Node :=
  match node.priv with
  | none => none
  | some k =>
    let data := 0 :: (natToBytesBE 32 k ++ natToBytesBE 4 (idx + 2147483648))
    let I := prfBytes (node.chain ++ [72] ++ data) 64
    let il := bytesToNat (I.take 32) % curveOrder
    let child := (il + k) % curveOrder
    if child = 0 then none
    else some { priv := some child, pub := pointOf child, chain := I.drop 32,
                network := node.network }

/-- The fixed derivation path constant `PATH` of wallet.ts: the BIP86
account path m/86h/0h/0h as its list of hardened child indices. -/
def PATH : List Nat := [86, 0, 0]

/-- Model of `root.derivePath(PATH)`: the three hardened derivation steps
of the fixed BIP86 path. -/
def derivePath86 (root : BIP32Node) : Option BIP32Node :=
  match deriveHardened root 86 with
  | none => none
  | some a =>
    match deriveHardened a 0 with
    | none => none
    | some b => deriveHardened b 0

/-- Model of `node.neutered()`: drop the secret scalar, keep public key,
chain code and network. -/
def neutered (node : BIP32Node) : BIP32Node := { node with priv := none }

/-- Model of `node.tweak(t)` from the `bip32` library on a private node:
the tweaked secret scalar is `(k + t) mod n`, rejected when it
degenerates to 0.  (The public-only tweak path is never exercised by
wallet.ts, which always tweaks the freshly derived private child.) -/
def tweakNode (node : BIP32Node) (t : ByteSeq) : Option BIP32Node :=
  match node.priv with
  | none => none
  | some k =>
    let k2 := (k + bytesToNat t) % curveOrder
    if k2 = 0 then none
    else some { priv := some k2, pub := pointOf k2, chain := node.chain,
                network := node.network }

/-- The ASCII bytes of the BIP341 tag string `TapTweak`. -/
def tapTweakTagBytes : ByteSeq := [84, 97, 112, 84, 119, 101, 97, 107]

/-- Model of `bitcoin.crypto.taggedHash(tag, msg)`: the stand-in of
SHA256(SHA256(tag) || SHA256(tag) || msg), 32 bytes. -/
def taggedHash (tag msg : ByteSeq) : ByteSeq :=
  prfBytes (tag ++ tag ++ msg) 32

/-- Model of `toXOnly` from bitcoinjs (`psbt/bip371`): a 32-byte key is
returned unchanged, otherwise the 32 bytes after the parity byte. -/
def toXOnly (pubKey : ByteSeq) : ByteSeq :=
  if pubKey.length = 32 then pubKey else (pubKey.drop 1).take 32

/-- Stand-in for `ecc.xOnlyPointAddTweak`: combine the x-only key and the
tweak into a new 32-byte x-only key; fails (point at infinity) when the
combined scalar degenerates to 0. -/
def xOnlyPointAddTweak (p t : ByteSeq) : Option ByteSeq :=
  let r := (bytesToNat p + bytesToNat t) % curveOrder
  if r = 0 then none else some (natToBytesBE 32 r)

/-- Model of `tweakKey` from `bitcoinjs-lib/src/payments/bip341` with no
merkle root: the tweak is taggedHash("TapTweak", xOnlyKey) and the output
key is the tweaked point; fails on a degenerate result or a key that is
not 32 bytes. -/
def tweakKey (xOnlyKey : ByteSeq) : Option ByteSeq :=
  if xOnlyKey.length = 32 then
    xOnlyPointAddTweak xOnlyKey (taggedHash tapTweakTagBytes xOnlyKey)
  else none

/-- Stand-in for the bech32m address encoding of a Taproot output key
under a network: the witness-v1 human-readable prefix followed by the hex
digits of the output key. -/
def bech32mAddress (nw : Network) (outputKey : ByteSeq) : String :=
  (match nw with
   | Network.mainnet => "bc1p"
   | Network.testnet => "tb1p") ++ hexEncodeS outputKey

/-- Model of `bitcoin.payments.p2tr({ internalPubkey, network })`: tweak
the internal x-only key per BIP341 and produce the address together with
the output script `OP_1 PUSH32 outputKey` (bytes `0x51 0x20` followed by
the 32-byte output key); fails when the tweak fails. -/
def p2tr (internalPubkey : ByteSeq) (nw : Network) : Option (String × ByteSeq) :=
  match tweakKey internalPubkey with
  | none => none
  | some outputKey => some (bech32mAddress nw outputKey, 81 :: 32 :: outputKey)

/-- Model of `bip39.mnemonicToSeedSync(mnemonic)`: the stand-in of
PBKDF2-HMAC-SHA512(mnemonic, "mnemonic" ++ empty passphrase), a 64-byte
seed.  Total: the library accepts arbitrary strings and performs no
wordlist or checksum validation. -/
def mnemonicToSeedSync (mnemonic : ByteSeq) : ByteSeq :=
  prfBytes (mnemonic ++ [109, 110]) 64

/-- The `WalletSigner` record of wallet.ts. -/
structure WalletSigner where
  root : BIP32Node
  xprv : BIP32Node
  xpub : BIP32Node
  seed : ByteSeq
deriving DecidableEq

/-- The `DecryptedWallet` record of wallet.ts; the mnemonic is its UTF-8
byte sequence. -/
structure DecryptedWallet where
  mnemonic : ByteSeq
  signer : WalletSigner
deriving DecidableEq

/-- The `EncryptedMnemonic` record of wallet.ts: kdf and cipher
identifiers plus four hex-encoded binary fields. -/
structure EncryptedMnemonic where
  kdf : String
  cipher : String
  salt : String
  iv : String
  tag : String
  data : String
deriving DecidableEq

/-- Model of `getSigner(mnemonic)` (wallet.ts lines 42 to 54): seed from
the mnemonic, root from the seed under `NETWORK`, `xprv` by the fixed
BIP86 path, `xpub` by neutering.  A library throw (degenerate seed or
derivation) becomes an `Except.error` carrying the message. -/
def getSigner (mnemonic : ByteSeq) : Except String WalletSigner :=
  let seed := mnemonicToSeedSync mnemonic
  match fromSeed seed NETWORK with
  | none => Except.error "Failed to create root key from seed"
  | some root =>
    match derivePath86 root with
    | none => Except.error "Missing private key for hardened child key"
    | some xprv =>
      Except.ok { root := root, xprv := xprv, xpub := neutered xprv, seed := seed }

/-- The value returned by `toTaprootSigner`: the tweaked child node (which
carries the signing scalar used by the sign closures) and its public
key. -/
structure TaprootSigner where
  node : BIP32Node
  publicKey : ByteSeq
deriving DecidableEq

/-- Model of `toTaprootSigner(signer)` (wallet.ts lines 56 to 74):
re-derive the child at the fixed path from `signer.root`, take its x-only
public key, tweak the child node by taggedHash("TapTweak", xOnlyKey)
exactly once, and expose the tweaked node and its public key. -/
def toTaprootSigner (signer : WalletSigner) : Option TaprootSigner :=
  match derivePath86 signer.root with
  | none => none
  | some childNode =>
    let childNodeXOnlyPubkey := toXOnly childNode.pub
    match tweakNode childNode (taggedHash tapTweakTagBytes childNodeXOnlyPubkey) with
    | none => none
    | some tweakedChildNode =>
      some { node := tweakedChildNode, publicKey := tweakedChildNode.pub }

/-- Modelled from the spec: the `EsploraUtxo` record supplied by the
indexer client (`@/lib/apis/esplora/types` is not under `src/`): a
transaction id, an output index and a value. -/
structure EsploraUtxo where
  txid : String
  vout : Nat
  value : Nat
deriving DecidableEq

/-- The inner `witnessUtxo` object returned by `getWitnessUtxo`. -/
structure WitnessUtxoOut where
  script : ByteSeq
  value : Nat
deriving DecidableEq

/-- The record returned by `getWitnessUtxo`. -/
structure WitnessUtxoRecord where
  hash : String
  index : Nat
  witnessUtxo : WitnessUtxoOut
  tapInternalKey : ByteSeq
deriving DecidableEq

/-- Model of `getWitnessUtxo(utxo, signer)` (wallet.ts lines 76 to 101):
re-derive the child at the fixed path from `signer.root`, build the p2tr
payment from its x-only key under `NETWORK`, and package the outpoint,
output script, value and internal key; throws when the output script
cannot be derived. -/
def getWitnessUtxo (utxo : EsploraUtxo) (signer : WalletSigner) :
    Except String WitnessUtxoRecord :=
  match derivePath86 signer.root with
  | none => Except.error "Missing private key for hardened child key"
  | some childNode =>
    let childNodeXOnlyPubkey := toXOnly childNode.pub
    match p2tr childNodeXOnlyPubkey NETWORK with
    | none => Except.error "Failed to derive p2tr output script"
    | some (_, output) =>
      Except.ok { hash := utxo.txid, index := utxo.vout,
                  witnessUtxo := { script := output, value := utxo.value },
                  tapInternalKey := childNodeXOnlyPubkey }

/-- Model of `firstTaprootAddress(signer)` (wallet.ts lines 103 to 116):
re-derive the child at the fixed path from `signer.root`, build the p2tr
payment from its x-only key under `NETWORK`, and return the address;
throws when the address cannot be derived. -/
def firstTaprootAddress (signer : WalletSigner) : Except String String :=
  match derivePath86 signer.root with
  | none => Except.error "Missing private key for hardened child key"
  | some childNode =>
    let childNodeXOnlyPubkey := toXOnly childNode.pub
    match p2tr childNodeXOnlyPubkey NETWORK with
    | none => Except.error "failed to derive p2tr address"
    | some (address, _) => Except.ok address

/-- Stand-in for `crypto.scryptSync(password, salt, keylen)`: derive
`keylen` key bytes from the password and the salt through the stand-in
PRF.  Total, as the Node primitive is for these arguments. -/
def scryptSync (password salt : ByteSeq) (keylen : Nat) : ByteSeq :=
  prfBytes (password ++ [58] ++ salt) keylen

/-- Stand-in for the AES-256-GCM CTR keystream of `n` bytes under a key
and a 12-byte nonce; it depends only on (key, iv), as in GCM. -/
def gcmKeystream (key iv : ByteSeq) (n : Nat) : ByteSeq :=
  prfBytes (key ++ [1] ++ iv) n

/-- Stand-in for the 16-byte AES-256-GCM authentication tag over the
ciphertext under a key and nonce (`cipher.getAuthTag()`); verification on
decryption recomputes it and compares. -/
def gcmTag (key iv ct : ByteSeq) : ByteSeq :=
  prfBytes (key ++ [2] ++ iv ++ [3] ++ ct ++ [ct.length % 256]) 16

/-- Model of `encryptMnemonic(mnemonic, password)` (wallet.ts lines 119
to 141).  The two random draws of the source, `crypto.randomBytes(16)`
for the salt and `crypto.randomBytes(12)` for the iv, are passed in
explicitly as the random tape.  The key is scrypt(password, salt, 32),
the ciphertext is the plaintext XORed with the GCM keystream (same
length), the tag authenticates the ciphertext, and all four binary fields
are hex-encoded. -/
def encryptMnemonic (mnemonic password salt iv : ByteSeq) : EncryptedMnemonic :=
  let key := scryptSync password salt 32
  let ciphertext := List.zipWith Nat.xor mnemonic (gcmKeystream key iv mnemonic.length)
  let tag := gcmTag key iv ciphertext
  { kdf := "scrypt"
    cipher := "aes-256-gcm"
    salt := hexEncodeS salt
    iv := hexEncodeS iv
    tag := hexEncodeS tag
    data := hexEncodeS ciphertext }

/-- The failure modes of `decryptWalletWithPassword`: the AEAD tag
verification failure thrown by `decipher.final()` (wrong password or
corrupted ciphertext), or a throw escaping the inner `getSigner` call. -/
inductive DecryptError where
  | AuthenticationError
  | DerivationThrow (msg : String)
deriving DecidableEq

/-- Model of `decryptWalletWithPassword(encrypted, password)` (wallet.ts
lines 143 to 162): decode the hex fields, re-derive the key by
scrypt(password, salt, 32), verify the authentication tag, and only on
success release the plaintext (ciphertext XOR keystream) and re-derive
the signer from it. -/
def decryptWalletWithPassword (encrypted : EncryptedMnemonic) (password : ByteSeq) :
    Except DecryptError DecryptedWallet :=
  let salt := hexDecodeS encrypted.salt
  let key := scryptSync password salt 32
  let iv := hexDecodeS encrypted.iv
  let tag := hexDecodeS encrypted.tag
  let data := hexDecodeS encrypted.data
  if gcmTag key iv data = tag then
    let decrypted := List.zipWith Nat.xor data (gcmKeystream key iv data.length)
    match getSigner decrypted with
    | Except.ok signer => Except.ok { mnemonic := decrypted, signer := signer }
    | Except.error msg => Except.error (DecryptError.DerivationThrow msg)
  else Except.error DecryptError.AuthenticationError

/-- The `SavedWallet` record of wallet.ts. -/
structure SavedWallet where
  encryptedMnemonic : EncryptedMnemonic
  address : String
deriving DecidableEq

/-- Stand-in BIP39 wordlist of 2048 distinct space-free words (three
letter bytes each), standing in for the English wordlist configured in
the external `bip39` library. -/
def wordlist : List ByteSeq :=
  (List.range 2048).map (fun i => [97 + i / 676, 97 + i / 26 % 26, 97 + i % 26])

/-- Index of a word in the wordlist, `none` when absent (the library
throws on an unknown word; `validateMnemonic` converts that to false). -/
def wordIndex (w : ByteSeq) : Option Nat :=
  List.findIdx? (fun x => x == w) wordlist

/-- Split a byte sequence on the space byte, as `mnemonic.split(" ")`. -/
def splitWords (m : ByteSeq) : List ByteSeq := List.splitOn 32 m

/-- BIP39 checksum check over the 11-bit word indices, modelled from the
`bip39` library `mnemonicToEntropy`: the concatenated index bits split
into ENT entropy bits and ENT/32 checksum bits, and the checksum bits
must equal the leading bits of the stand-in SHA256 of the entropy
bytes. -/
def checksumOk (idxs : List Nat) : Bool :=
  let n := idxs.length
  let cs := n / 3
  let combined := idxs.foldl (fun acc i => acc * 2048 + i) 0
  let entropy := combined / 2 ^ cs
  let entropyBytes := natToBytesBE ((n * 11 - cs) / 8) entropy
  let digest := prfBytes (83 :: entropyBytes) 32
  combined % 2 ^ cs == digest.headD 0 / 2 ^ (8 - cs)

/-- Model of `bip39.validateMnemonic(mnemonic)` over a candidate byte
sequence: the word count must be a multiple of 3 between 12 and 24, every
word must be in the wordlist, and the checksum bits must verify. -/
def validateMnemonic (m : ByteSeq) : Bool :=
  let words := splitWords m
  if words.length % 3 ≠ 0 ∨ words.length < 12 ∨ 24 < words.length then false
  else
    match words.mapM wordIndex with
    | none => false
    | some idxs => checksumOk idxs

/-- The awaited library call inside `isValidMnemonic`, with the
possibility of an internal fault (for example a failed asynchronous
wordlist lookup) made explicit by the `lookupOk` flag: a fault is a
thrown error, success is the boolean verdict of `validateMnemonic`. -/
def validateMnemonicCall (lookupOk : Bool) (m : ByteSeq) : Except String Bool :=
  if lookupOk then Except.ok (validateMnemonic m)
  else Except.error "wordlist lookup failed"

/-- Model of `isValidMnemonic(mnemonic)` (wallet.ts lines 169 to 176):
the library verdict, with every thrown error caught and converted to
`false`. -/
def isValidMnemonic (lookupOk : Bool) (m : ByteSeq) : Bool :=
  match validateMnemonicCall lookupOk m with
  | Except.ok isValid => isValid
  | Except.error _ => false

/-- The `WalletError` enum of wallet.ts. -/
inductive WalletError where
  | InvalidMnemonic
deriving DecidableEq

/-- Modelled from the spec: the boxed result type of
`@/lib/utils/boxed` (not under `src/`): a success carrying data, or an
error carrying a tag and a human-readable message. -/
inductive BoxedResponse (α : Type) (ε : Type) where
  | success (data : α)
  | error (errorType : ε) (message : String)
deriving DecidableEq

/-- The composite success value of `generateWallet`. -/
structure GeneratedWallet where
  mnemonic : ByteSeq
  signer : WalletSigner
  walletJson : SavedWallet
deriving DecidableEq

/-- The random draws consumed by `generateWallet`: the freshly generated
mnemonic from `bip39.generateMnemonic(128)` (used only when
`from_mnemonic` is absent) and the salt and iv drawn inside
`encryptMnemonic`. -/
structure GenTape where
  genMnemonic : ByteSeq
  salt : ByteSeq
  iv : ByteSeq
deriving DecidableEq

/-- The options record of `generateWallet`. -/
structure GenerateOpts where
  from_mnemonic : Option ByteSeq
  password : ByteSeq
deriving DecidableEq

/-- Model of `generateWallet(opts)` (wallet.ts lines 177 to 201): take the
supplied mnemonic or the freshly generated one, derive the signer,
encrypt the mnemonic and derive the receiving address; every throw inside
the `try` block is caught and returned as a `BoxedError` with the
`InvalidMnemonic` tag and the message of the thrown error. -/
def generateWallet (opts : GenerateOpts) (tape : GenTape) :
    BoxedResponse GeneratedWallet WalletError :=
  let mnemonic := opts.from_mnemonic.getD tape.genMnemonic
  match getSigner mnemonic with
  | Except.error msg => BoxedResponse.error WalletError.InvalidMnemonic msg
  | Except.ok signer =>
    match firstTaprootAddress signer with
    | Except.error msg => BoxedResponse.error WalletError.InvalidMnemonic msg
    | Except.ok address =>
      BoxedResponse.success
        { mnemonic := mnemonic
          signer := signer
          walletJson :=
            { encryptedMnemonic := encryptMnemonic mnemonic opts.password tape.salt tape.iv
              address := address } }

/-! ### Sample values used by the concrete witnesses -/

/-- A placeholder node used only as the default of `Option.getD`. -/
def dummyNode : BIP32Node :=
  { priv := none, pub := [], chain := [], network := Network.mainnet }

/-- A placeholder signer used only as the default of `Option.getD`. -/
def dummySigner : WalletSigner :=
  { root := dummyNode, xprv := dummyNode, xpub := dummyNode, seed := [] }

/-- The bytes of the sample mnemonic string "abc de". -/
def sampleMnemonic : ByteSeq := [97, 98, 99, 32, 100, 101]

/-- The bytes of the sample password "pw". -/
def samplePassword : ByteSeq := [112, 119]

/-- The bytes of a different password "qw". -/
def altPassword : ByteSeq := [113, 119]

/-- A concrete 16-byte salt draw. -/
def sampleSalt : ByteSeq := prfBytes [9] 16

/-- A concrete 12-byte iv draw. -/
def sampleIv : ByteSeq := prfBytes [8] 12

/-- The signer derived from the sample mnemonic. -/
def sampleSigner : WalletSigner := (getSigner sampleMnemonic).toOption.getD dummySigner

/-- The BIP86 child of the sample signer root. -/
def sampleChild : BIP32Node := (derivePath86 sampleSigner.root).getD dummyNode

/-- The TapTweaked sample child node. -/
def sampleTweaked : BIP32Node :=
  (tweakNode sampleChild (taggedHash tapTweakTagBytes (toXOnly sampleChild.pub))).getD dummyNode

/-- The p2tr payment of the sample child key. -/
def sampleP2tr : String × ByteSeq := (p2tr (toXOnly sampleChild.pub) NETWORK).getD ("", [])

/-- A sample unspent output record. -/
def sampleUtxo : EsploraUtxo := { txid := "ab", vout := 1, value := 5000 }

/-- A signer agreeing with `sampleSigner` on `root` but differing in every
other field. -/
def altSigner : WalletSigner :=
  { root := sampleSigner.root, xprv := dummyNode, xpub := dummyNode, seed := [7] }

/-- The bytes of the string "z z z": three one-letter words that are not
in the wordlist and have an invalid word count, hence not a valid BIP39
phrase. -/
def badMnemonic : ByteSeq := [122, 32, 122, 32, 122]

/-- A concrete random tape for `generateWallet`. -/
def sampleTape : GenTape := { genMnemonic := [], salt := sampleSalt, iv := sampleIv }

/-- The signer derived from the invalid phrase `badMnemonic`. -/
def badSigner : WalletSigner := (getSigner badMnemonic).toOption.getD dummySigner

/-- The receiving address derived from `badSigner`. -/
def badAddress : String := (firstTaprootAddress badSigner).toOption.getD ""

/-! ### Helper lemmas -/

theorem prfBytes_length (s : ByteSeq) (n : Nat) : (prfBytes s n).length = n := by
  simp [prfBytes]

theorem prfBytes_mem_lt {s : ByteSeq} {n : Nat} : ∀ b ∈ prfBytes s n, b < 256 := by
  intro b hb
  simp only [prfBytes, List.mem_map] at hb
  obtain ⟨i, _, rfl⟩ := hb
  exact Nat.mod_lt _ (by norm_num)

theorem hexDigitVal_hexDigitChar : ∀ n < 16, hexDigitVal (hexDigitChar n) = n := by decide

theorem hexDecode_hexEncode :
    ∀ (bs : ByteSeq), (∀ b ∈ bs, b < 256) → hexDecode (hexEncode bs) = bs := by
  intro bs
  induction bs with
  | nil => intro _; rfl
  | cons b rest ih =>
    intro h
    have hb : b < 256 := h b (List.mem_cons_self b rest)
    have h1 : b / 16 < 16 := by omega
    have h2 : b % 16 < 16 := Nat.mod_lt _ (by norm_num)
    have hrest := ih (fun x hx => h x (List.mem_cons_of_mem b hx))
    simp only [hexEncode, hexDecode, hrest,
      hexDigitVal_hexDigitChar _ h1, hexDigitVal_hexDigitChar _ h2]
    have : b / 16 * 16 + b % 16 = b := by omega
    rw [this]

theorem hexDecodeS_hexEncodeS (bs : ByteSeq) (h : ∀ b ∈ bs, b < 256) :
    hexDecodeS (hexEncodeS bs) = bs :=
  hexDecode_hexEncode bs h

theorem zipWith_xor_cancel :
    ∀ (a b : List Nat), a.length = b.length →
      List.zipWith Nat.xor (List.zipWith Nat.xor a b) b = a := by
  intro a
  induction a with
  | nil => intro b _; rfl
  | cons x xs ih =>
    intro b h
    cases b with
    | nil => simp at h
    | cons y ys =>
      simp only [List.zipWith_cons_cons, List.cons.injEq]
      refine ⟨?_, ih ys (by simpa using h)⟩
      calc (x ^^^ y) ^^^ y = x ^^^ (y ^^^ y) := Nat.xor_assoc x y y
        _ = x ^^^ 0 := by rw [Nat.xor_self]
        _ = x := Nat.xor_zero x

theorem zipWith_xor_lt :
    ∀ (a b : List Nat), (∀ x ∈ a, x < 256) → (∀ y ∈ b, y < 256) →
      ∀ z ∈ List.zipWith Nat.xor a b, z < 256 := by
  intro a
  induction a with
  | nil => intro b _ _ z hz; simp at hz
  | cons x xs ih =>
    intro b ha hb z hz
    cases b with
    | nil => simp at hz
    | cons y ys =>
      simp only [List.zipWith_cons_cons, List.mem_cons] at hz
      rcases hz with rfl | hz
      · have hx : x < 2 ^ 8 := ha x (List.mem_cons_self x xs)
        have hy : y < 2 ^ 8 := hb y (List.mem_cons_self y ys)
        exact Nat.xor_lt_two_pow hx hy
      · exact ih ys (fun u hu => ha u (List.mem_cons_of_mem x hu))
          (fun u hu => hb u (List.mem_cons_of_mem y hu)) z hz

theorem gcmKeystream_length (key iv : ByteSeq) (n : Nat) :
    (gcmKeystream key iv n).length = n :=
  prfBytes_length _ n

theorem gcmKeystream_mem_lt {key iv : ByteSeq} {n : Nat} :
    ∀ b ∈ gcmKeystream key iv n, b < 256 :=
  prfBytes_mem_lt

theorem gcmTag_mem_lt {key iv ct : ByteSeq} : ∀ b ∈ gcmTag key iv ct, b < 256 :=
  prfBytes_mem_lt

/-- The ciphertext produced by `encryptMnemonic` has the byte length of
the plaintext. -/
theorem encrypt_ciphertext_length (m key iv : ByteSeq) :
    (List.zipWith Nat.xor m (gcmKeystream key iv m.length)).length = m.length := by
  rw [List.length_zipWith, gcmKeystream_length, Nat.min_self]

/-- Unfolding equation for `decryptWalletWithPassword`. -/
theorem decryptWalletWithPassword_eq (enc : EncryptedMnemonic) (pw : ByteSeq) :
    decryptWalletWithPassword enc pw =
      if gcmTag (scryptSync pw (hexDecodeS enc.salt) 32) (hexDecodeS enc.iv)
          (hexDecodeS enc.data) = hexDecodeS enc.tag then
        match getSigner (List.zipWith Nat.xor (hexDecodeS enc.data)
            (gcmKeystream (scryptSync pw (hexDecodeS enc.salt) 32) (hexDecodeS enc.iv)
              (hexDecodeS enc.data).length)) with
        | Except.ok signer =>
          Except.ok (DecryptedWallet.mk
            (List.zipWith Nat.xor (hexDecodeS enc.data)
              (gcmKeystream (scryptSync pw (hexDecodeS enc.salt) 32) (hexDecodeS enc.iv)
                (hexDecodeS enc.data).length))
            signer)
        | Except.error msg => Except.error (DecryptError.DerivationThrow msg)
      else Except.error DecryptError.AuthenticationError := rfl

theorem encryptMnemonic_salt (m p salt iv : ByteSeq) :
    (encryptMnemonic m p salt iv).salt = hexEncodeS salt := rfl

theorem encryptMnemonic_iv (m p salt iv : ByteSeq) :
    (encryptMnemonic m p salt iv).iv = hexEncodeS iv := rfl

theorem encryptMnemonic_tag (m p salt iv : ByteSeq) :
    (encryptMnemonic m p salt iv).tag =
      hexEncodeS (gcmTag (scryptSync p salt 32) iv
        (List.zipWith Nat.xor m (gcmKeystream (scryptSync p salt 32) iv m.length))) := rfl

theorem encryptMnemonic_data (m p salt iv : ByteSeq) :
    (encryptMnemonic m p salt iv).data =
      hexEncodeS (List.zipWith Nat.xor m (gcmKeystream (scryptSync p salt 32) iv m.length)) :=
  rfl

/-! ### Claim theorems -/

/-- C1: for every mnemonic byte sequence `m` and password `p` (and every
draw of the salt and iv random tape), decrypting the output of
`encryptMnemonic m p` with the same password succeeds and returns exactly
the plaintext bytes `m`.  The signer-success hypothesis reflects that
`decryptWalletWithPassword` also re-derives the signer from the recovered
mnemonic and propagates a (degenerate-seed) throw from that step. -/
theorem c1_decrypt_encrypt_roundtrip
    (m p salt iv : ByteSeq) (s : WalletSigner)
    (hm : ∀ b ∈ m, b < 256) (hsalt : ∀ b ∈ salt, b < 256) (hiv : ∀ b ∈ iv, b < 256)
    (hs : getSigner m = Except.ok s) :
    decryptWalletWithPassword (encryptMnemonic m p salt iv) p =
      Except.ok { mnemonic := m, signer := s } := by
  have hksb : ∀ b ∈ gcmKeystream (scryptSync p salt 32) iv m.length, b < 256 :=
    gcmKeystream_mem_lt
  have hctb : ∀ z ∈ List.zipWith Nat.xor m (gcmKeystream (scryptSync p salt 32) iv m.length),
      z < 256 := zipWith_xor_lt _ _ hm hksb
  have htagb : ∀ b ∈ gcmTag (scryptSync p salt 32) iv
      (List.zipWith Nat.xor m (gcmKeystream (scryptSync p salt 32) iv m.length)), b < 256 :=
    gcmTag_mem_lt
  rw [decryptWalletWithPassword_eq, encryptMnemonic_salt, encryptMnemonic_iv,
    encryptMnemonic_tag, encryptMnemonic_data,
    hexDecodeS_hexEncodeS salt hsalt, hexDecodeS_hexEncodeS iv hiv,
    hexDecodeS_hexEncodeS _ hctb, hexDecodeS_hexEncodeS _ htagb,
    encrypt_ciphertext_length, if_pos rfl,
    zipWith_xor_cancel m _ (gcmKeystream_length _ _ _).symm, hs]

/-- C2: decryption under a wrong password `p2 ≠ p` fails with
`AuthenticationError` and releases no plaintext, and the same holds for
any encrypted record whose stored tag does not verify against the
recomputed one (altered ciphertext or tag).  The tag-difference
hypothesis is the AEAD idealization: distinct scrypt keys yield distinct
authentication tags. -/
theorem c2_decrypt_wrong_password_authentication
    (m p p2 salt iv : ByteSeq)
    (_hp : p2 ≠ p)
    (htag : gcmTag (scryptSync p2 salt 32) iv
        (List.zipWith Nat.xor m (gcmKeystream (scryptSync p salt 32) iv m.length)) ≠
      gcmTag (scryptSync p salt 32) iv
        (List.zipWith Nat.xor m (gcmKeystream (scryptSync p salt 32) iv m.length)))
    (hm : ∀ b ∈ m, b < 256) (hsalt : ∀ b ∈ salt, b < 256) (hiv : ∀ b ∈ iv, b < 256) :
    decryptWalletWithPassword (encryptMnemonic m p salt iv) p2 =
        Except.error DecryptError.AuthenticationError ∧
      (∀ d, decryptWalletWithPassword (encryptMnemonic m p salt iv) p2 ≠ Except.ok d) ∧
      ∀ (enc : EncryptedMnemonic) (pw : ByteSeq),
        gcmTag (scryptSync pw (hexDecodeS enc.salt) 32) (hexDecodeS enc.iv)
            (hexDecodeS enc.data) ≠ hexDecodeS enc.tag →
          decryptWalletWithPassword enc pw = Except.error DecryptError.AuthenticationError := by
  have hksb : ∀ b ∈ gcmKeystream (scryptSync p salt 32) iv m.length, b < 256 :=
    gcmKeystream_mem_lt
  have hctb : ∀ z ∈ List.zipWith Nat.xor m (gcmKeystream (scryptSync p salt 32) iv m.length),
      z < 256 := zipWith_xor_lt _ _ hm hksb
  have htagb : ∀ b ∈ gcmTag (scryptSync p salt 32) iv
      (List.zipWith Nat.xor m (gcmKeystream (scryptSync p salt 32) iv m.length)), b < 256 :=
    gcmTag_mem_lt
  have hmain : decryptWalletWithPassword (encryptMnemonic m p salt iv) p2 =
      Except.error DecryptError.AuthenticationError := by
    rw [decryptWalletWithPassword_eq, encryptMnemonic_salt, encryptMnemonic_iv,
      encryptMnemonic_tag, encryptMnemonic_data,
      hexDecodeS_hexEncodeS salt hsalt, hexDecodeS_hexEncodeS iv hiv,
      hexDecodeS_hexEncodeS _ hctb, hexDecodeS_hexEncodeS _ htagb, if_neg htag]
  refine ⟨hmain, ?_, ?_⟩
  · intro d hd
    rw [hmain] at hd
    exact Except.noConfusion hd
  · intro enc pw htag2
    rw [decryptWalletWithPassword_eq, if_neg htag2]

/-- C3: whenever `getSigner m` succeeds, the returned `WalletSigner` has
seed = mnemonicToSeedSync(m), root = fromSeed(seed, NETWORK), xprv =
derivePath(root, m/86h/0h/0h) and xpub = neutered(xprv). -/
theorem c3_getSigner_structure (m : ByteSeq) (s : WalletSigner)
    (hs : getSigner m = Except.ok s) :
    s.seed = mnemonicToSeedSync m ∧
    fromSeed (mnemonicToSeedSync m) NETWORK = some s.root ∧
    derivePath86 s.root = some s.xprv ∧
    s.xpub = neutered s.xprv := by
  simp only [getSigner] at hs
  split at hs
  · exact Except.noConfusion hs
  · rename_i root hfs
    split at hs
    · exact Except.noConfusion hs
    · rename_i xprv hdp
      have hrec := Except.ok.inj hs
      subst hrec
      exact ⟨rfl, hfs, hdp, rfl⟩

/-- C4: `toTaprootSigner` derives the child at the fixed path from
`signer.root`, applies the TapTweak tagged hash of the 32-byte x-only
child key as the tweak exactly once, and is pure: the output is a
function of the signer alone, so two calls agree bit-for-bit. -/
theorem c4_toTaprootSigner_tweak_once_pure
    (s : WalletSigner) (child tweaked : BIP32Node)
    (hchild : derivePath86 s.root = some child)
    (htw : tweakNode child (taggedHash tapTweakTagBytes (toXOnly child.pub)) = some tweaked) :
    toTaprootSigner s = some { node := tweaked, publicKey := tweaked.pub } ∧
    toTaprootSigner s = toTaprootSigner s := by
  constructor
  · simp only [toTaprootSigner, hchild, htw]
  · rfl

/-- C5: `getWitnessUtxo(u, s)` carries the outpoint `(u.txid, u.vout)`,
the p2tr output script, the value `u.value` unchanged, and a
`tapInternalKey` equal to the x-only child public key from which
`firstTaprootAddress(s)` builds its address. -/
theorem c5_witnessUtxo_matches_address
    (s : WalletSigner) (u : EsploraUtxo) (child : BIP32Node)
    (addr : String) (script : ByteSeq)
    (hchild : derivePath86 s.root = some child)
    (hp2tr : p2tr (toXOnly child.pub) NETWORK = some (addr, script)) :
    getWitnessUtxo u s = Except.ok
      { hash := u.txid, index := u.vout,
        witnessUtxo := { script := script, value := u.value },
        tapInternalKey := toXOnly child.pub } ∧
    firstTaprootAddress s = Except.ok addr := by
  constructor
  · simp only [getWitnessUtxo, hchild, hp2tr]
  · simp only [firstTaprootAddress, hchild, hp2tr]

/-- C7: `generateWallet` is total and returns either a complete success
bundle or a `BoxedError` tagged `InvalidMnemonic` with a message; the
error value carries no partial wallet data. -/
theorem c7_generateWallet_total_tagged (opts : GenerateOpts) (tape : GenTape) :
    (∃ d, generateWallet opts tape = BoxedResponse.success d) ∨
    (∃ msg, generateWallet opts tape = BoxedResponse.error WalletError.InvalidMnemonic msg) := by
  have hg : generateWallet opts tape =
      match getSigner (opts.from_mnemonic.getD tape.genMnemonic) with
      | Except.error msg => BoxedResponse.error WalletError.InvalidMnemonic msg
      | Except.ok signer =>
        match firstTaprootAddress signer with
        | Except.error msg => BoxedResponse.error WalletError.InvalidMnemonic msg
        | Except.ok address =>
          BoxedResponse.success
            (GeneratedWallet.mk (opts.from_mnemonic.getD tape.genMnemonic) signer
              (SavedWallet.mk
                (encryptMnemonic (opts.from_mnemonic.getD tape.genMnemonic)
                  opts.password tape.salt tape.iv)
                address)) := rfl
  rw [hg]
  split
  · exact Or.inr ⟨_, rfl⟩
  · split
    · exact Or.inr ⟨_, rfl⟩
    · exact Or.inl ⟨_, rfl⟩

/-- C6: `encryptMnemonic` emits kdf "scrypt", cipher "aes-256-gcm", the
hex encodings of the 16-byte salt, the 12-byte iv and the 16-byte tag,
and a hex ciphertext whose decoded byte length equals the byte length of
the plaintext mnemonic; the derived key is 32 bytes from (password,
salt).  The salt and iv length hypotheses model `crypto.randomBytes(16)`
and `crypto.randomBytes(12)`. -/
theorem c6_encryptMnemonic_format
    (m p salt iv : ByteSeq)
    (hsl : salt.length = 16) (hil : iv.length = 12)
    (hsb : ∀ b ∈ salt, b < 256) (hib : ∀ b ∈ iv, b < 256) (hmb : ∀ b ∈ m, b < 256) :
    (encryptMnemonic m p salt iv).kdf = "scrypt" ∧
    (encryptMnemonic m p salt iv).cipher = "aes-256-gcm" ∧
    (encryptMnemonic m p salt iv).salt = hexEncodeS salt ∧
    (hexDecodeS (encryptMnemonic m p salt iv).salt).length = 16 ∧
    (encryptMnemonic m p salt iv).iv = hexEncodeS iv ∧
    (hexDecodeS (encryptMnemonic m p salt iv).iv).length = 12 ∧
    (hexDecodeS (encryptMnemonic m p salt iv).tag).length = 16 ∧
    (hexDecodeS (encryptMnemonic m p salt iv).data).length = m.length ∧
    (scryptSync p salt 32).length = 32 := by
  have hksb : ∀ b ∈ gcmKeystream (scryptSync p salt 32) iv m.length, b < 256 :=
    gcmKeystream_mem_lt
  have hctb : ∀ z ∈ List.zipWith Nat.xor m (gcmKeystream (scryptSync p salt 32) iv m.length),
      z < 256 := zipWith_xor_lt _ _ hmb hksb
  have htagb : ∀ b ∈ gcmTag (scryptSync p salt 32) iv
      (List.zipWith Nat.xor m (gcmKeystream (scryptSync p salt 32) iv m.length)), b < 256 :=
    gcmTag_mem_lt
  refine ⟨rfl, rfl, rfl, ?_, rfl, ?_, ?_, ?_, ?_⟩
  · rw [encryptMnemonic_salt, hexDecodeS_hexEncodeS salt hsb, hsl]
  · rw [encryptMnemonic_iv, hexDecodeS_hexEncodeS iv hib, hil]
  · rw [encryptMnemonic_tag, hexDecodeS_hexEncodeS _ htagb]
    exact prfBytes_length _ 16
  · rw [encryptMnemonic_data, hexDecodeS_hexEncodeS _ hctb]
    exact encrypt_ciphertext_length m _ iv
  · exact prfBytes_length _ 32

/-- C8: `isValidMnemonic` is total (never raises): the library verdict is
returned and every internal fault (here the lookup-failure environment
flag) collapses to `false`; it returns `true` exactly when the candidate
passes the BIP39 checks (word count a multiple of 3 between 12 and 24,
every word in the wordlist, checksum bits correct). -/
theorem c8_isValidMnemonic_swallow_all (lookupOk : Bool) (m : ByteSeq) :
    (isValidMnemonic lookupOk m = true ↔ lookupOk = true ∧ validateMnemonic m = true) ∧
    (lookupOk = false → isValidMnemonic lookupOk m = false) ∧
    (validateMnemonic m = true ↔
      ((splitWords m).length % 3 = 0 ∧ 12 ≤ (splitWords m).length ∧
        (splitWords m).length ≤ 24 ∧
        ∃ idxs, (splitWords m).mapM wordIndex = some idxs ∧ checksumOk idxs = true)) := by
  refine ⟨?_, ?_, ?_⟩
  · cases lookupOk with
    | false =>
      have h1 : isValidMnemonic false m = false := rfl
      rw [h1]
      simp
    | true =>
      have h1 : isValidMnemonic true m = validateMnemonic m := rfl
      rw [h1]
      simp
  · intro h
    subst h
    rfl
  · simp only [validateMnemonic]
    by_cases h : (splitWords m).length % 3 ≠ 0 ∨ (splitWords m).length < 12 ∨
        24 < (splitWords m).length
    · rw [if_pos h]
      constructor
      · intro hc
        exact absurd hc (by simp)
      · rintro ⟨h1, h2, h3, -⟩
        rcases h with h | h | h <;> omega
    · rw [if_neg h]
      push_neg at h
      obtain ⟨h1, h2, h3⟩ := h
      cases hmap : (splitWords m).mapM wordIndex with
      | none =>
        constructor
        · intro hc
          exact absurd hc (by simp)
        · rintro ⟨-, -, -, idxs, hidx, -⟩
          exact Option.noConfusion hidx
      | some idxs =>
        constructor
        · intro hc
          exact ⟨h1, by omega, by omega, idxs, rfl, hc⟩
        · rintro ⟨-, -, -, idxs2, hidx, hc⟩
          rw [Option.some.inj hidx]
          exact hc

/-- C10: `toTaprootSigner`, `getWitnessUtxo` and `firstTaprootAddress`
read only the `root` field of their `WalletSigner` argument: signers
agreeing on `root` produce identical outputs whatever their `xprv`,
`xpub` and `seed` fields. -/
theorem c10_root_only_dependence
    (s1 s2 : WalletSigner) (u : EsploraUtxo) (h : s1.root = s2.root) :
    toTaprootSigner s1 = toTaprootSigner s2 ∧
    getWitnessUtxo u s1 = getWitnessUtxo u s2 ∧
    firstTaprootAddress s1 = firstTaprootAddress s2 := by
  refine ⟨?_, ?_, ?_⟩
  · simp only [toTaprootSigner, h]
  · simp only [getWitnessUtxo, h]
  · simp only [firstTaprootAddress, h]

/-- C9: `generateWallet` performs no BIP39 validation of a supplied
`from_mnemonic`: the concrete phrase "z z z" is rejected by the
validator, yet `generateWallet` succeeds on it and returns it as the
wallet mnemonic, because the mnemonic-to-seed stretching inside
`getSigner` accepts arbitrary strings; the `InvalidMnemonic` tag is not
produced. -/
theorem c9_generateWallet_skips_validation :
    validateMnemonic badMnemonic = false ∧
    isValidMnemonic true badMnemonic = false ∧
    generateWallet { from_mnemonic := some badMnemonic, password := samplePassword }
        sampleTape =
      BoxedResponse.success
        { mnemonic := badMnemonic
          signer := badSigner
          walletJson :=
            { encryptedMnemonic := encryptMnemonic badMnemonic samplePassword sampleSalt sampleIv
              address := badAddress } } :=
  ⟨by decide, by decide, by decide⟩

/-! ### Witnesses: the claim theorems applied at concrete inputs -/

/-- Witness for C1 at the sample mnemonic, password, salt and iv. -/
theorem c1_witness :
    (∀ b ∈ sampleMnemonic, b < 256) ∧ (∀ b ∈ sampleSalt, b < 256) ∧
    (∀ b ∈ sampleIv, b < 256) ∧ getSigner sampleMnemonic = Except.ok sampleSigner ∧
    decryptWalletWithPassword
        (encryptMnemonic sampleMnemonic samplePassword sampleSalt sampleIv) samplePassword =
      Except.ok { mnemonic := sampleMnemonic, signer := sampleSigner } :=
  ⟨by decide, by decide, by decide, by decide,
    c1_decrypt_encrypt_roundtrip sampleMnemonic samplePassword sampleSalt sampleIv sampleSigner
      (by decide) (by decide) (by decide) (by decide)⟩

/-- Witness for C2: decrypting the sample ciphertext with the different
password "qw" hits a genuinely different tag and fails with
`AuthenticationError`. -/
theorem c2_witness :
    altPassword ≠ samplePassword ∧
    gcmTag (scryptSync altPassword sampleSalt 32) sampleIv
        (List.zipWith Nat.xor sampleMnemonic
          (gcmKeystream (scryptSync samplePassword sampleSalt 32) sampleIv
            sampleMnemonic.length)) ≠
      gcmTag (scryptSync samplePassword sampleSalt 32) sampleIv
        (List.zipWith Nat.xor sampleMnemonic
          (gcmKeystream (scryptSync samplePassword sampleSalt 32) sampleIv
            sampleMnemonic.length)) ∧
    decryptWalletWithPassword
        (encryptMnemonic sampleMnemonic samplePassword sampleSalt sampleIv) altPassword =
      Except.error DecryptError.AuthenticationError :=
  ⟨by decide, by decide,
    (c2_decrypt_wrong_password_authentication sampleMnemonic samplePassword altPassword
      sampleSalt sampleIv (by decide) (by decide) (by decide) (by decide) (by decide)).1⟩

/-- Witness for C3 at the sample mnemonic. -/
theorem c3_witness :
    getSigner sampleMnemonic = Except.ok sampleSigner ∧
    (sampleSigner.seed = mnemonicToSeedSync sampleMnemonic ∧
      fromSeed (mnemonicToSeedSync sampleMnemonic) NETWORK = some sampleSigner.root ∧
      derivePath86 sampleSigner.root = some sampleSigner.xprv ∧
      sampleSigner.xpub = neutered sampleSigner.xprv) :=
  ⟨by decide, c3_getSigner_structure sampleMnemonic sampleSigner (by decide)⟩

/-- Witness for C4 at the sample signer. -/
theorem c4_witness :
    derivePath86 sampleSigner.root = some sampleChild ∧
    tweakNode sampleChild (taggedHash tapTweakTagBytes (toXOnly sampleChild.pub)) =
      some sampleTweaked ∧
    (toTaprootSigner sampleSigner =
        some { node := sampleTweaked, publicKey := sampleTweaked.pub } ∧
      toTaprootSigner sampleSigner = toTaprootSigner sampleSigner) :=
  ⟨by decide, by decide,
    c4_toTaprootSigner_tweak_once_pure sampleSigner sampleChild sampleTweaked
      (by decide) (by decide)⟩

/-- Witness for C5 at the sample signer and utxo. -/
theorem c5_witness :
    derivePath86 sampleSigner.root = some sampleChild ∧
    p2tr (toXOnly sampleChild.pub) NETWORK = some (sampleP2tr.1, sampleP2tr.2) ∧
    (getWitnessUtxo sampleUtxo sampleSigner = Except.ok
        { hash := sampleUtxo.txid, index := sampleUtxo.vout,
          witnessUtxo := { script := sampleP2tr.2, value := sampleUtxo.value },
          tapInternalKey := toXOnly sampleChild.pub } ∧
      firstTaprootAddress sampleSigner = Except.ok sampleP2tr.1) :=
  ⟨by decide, by decide,
    c5_witnessUtxo_matches_address sampleSigner sampleUtxo sampleChild
      sampleP2tr.1 sampleP2tr.2 (by decide) (by decide)⟩

/-- Witness for C6 at the sample inputs. -/
theorem c6_witness :
    sampleSalt.length = 16 ∧ sampleIv.length = 12 ∧
    (∀ b ∈ sampleSalt, b < 256) ∧ (∀ b ∈ sampleIv, b < 256) ∧
    (∀ b ∈ sampleMnemonic, b < 256) ∧
    ((encryptMnemonic sampleMnemonic samplePassword sampleSalt sampleIv).kdf = "scrypt" ∧
      (encryptMnemonic sampleMnemonic samplePassword sampleSalt sampleIv).cipher =
        "aes-256-gcm" ∧
      (encryptMnemonic sampleMnemonic samplePassword sampleSalt sampleIv).salt =
        hexEncodeS sampleSalt ∧
      (hexDecodeS (encryptMnemonic sampleMnemonic samplePassword sampleSalt
        sampleIv).salt).length = 16 ∧
      (encryptMnemonic sampleMnemonic samplePassword sampleSalt sampleIv).iv =
        hexEncodeS sampleIv ∧
      (hexDecodeS (encryptMnemonic sampleMnemonic samplePassword sampleSalt
        sampleIv).iv).length = 12 ∧
      (hexDecodeS (encryptMnemonic sampleMnemonic samplePassword sampleSalt
        sampleIv).tag).length = 16 ∧
      (hexDecodeS (encryptMnemonic sampleMnemonic samplePassword sampleSalt
        sampleIv).data).length = sampleMnemonic.length ∧
      (scryptSync samplePassword sampleSalt 32).length = 32) :=
  ⟨by decide, by decide, by decide, by decide, by decide,
    c6_encryptMnemonic_format sampleMnemonic samplePassword sampleSalt sampleIv
      (by decide) (by decide) (by decide) (by decide) (by decide)⟩

/-- Witness for C10: two signers agreeing on `root` but differing in
`xprv`, `xpub` and `seed` produce identical outputs. -/
theorem c10_witness :
    sampleSigner.root = altSigner.root ∧
    (toTaprootSigner sampleSigner = toTaprootSigner altSigner ∧
      getWitnessUtxo sampleUtxo sampleSigner = getWitnessUtxo sampleUtxo altSigner ∧
      firstTaprootAddress sampleSigner = firstTaprootAddress altSigner) :=
  ⟨rfl, c10_root_only_dependence sampleSigner altSigner sampleUtxo rfl⟩

end DunesWallet
